import Mathlib

/-!
# Verification of the Directo → Elasticsearch ETL pipeline

A shallow embedding of the repository's core logic:

* `src/elasticsearch_indexer.py` — `ElasticsearchIndexer.index_dataframe`,
  `index_all_data`, `create_index_mappings` (field declarations);
* `src/directo_connector.py` — `DirectoConnector.get_all_financial_data`;
* `src/main_openai.py` — `FinancialAIAssistant.run_etl_pipeline`;
* `src/ai_query_handler_openai.py` — `AIQueryHandler._build_elasticsearch_query`,
  `_execute_elasticsearch_query`, `_format_results_for_ai`, `answer_question`;
* `src/verify_data_quick.py` — the invoice statistics aggregation.

External services (the Directo HTTP API, the Elasticsearch store, the OpenAI
oracle, and Python's `json.loads`) are modelled as explicit function
parameters; everything the repository itself computes is embedded as
executable Lean definitions.
-/

namespace DirectoPipeline

/-! ## Cell values

A pandas cell as the loader sees it.  `vnan` is the float NaN / NaT sentinel
(`pd.isna` true), `vnull` is Python `None`, `vtime iso` is a
`pd.Timestamp`/`datetime` whose `isoformat()` is `iso`.  Floats beyond the
NaN sentinel are modelled by `vnum : Int`; nothing in the claims depends on
float formatting. -/
inductive Value where
  | vnull
  | vnan
  | vstr (s : String)
  | vnum (n : Int)
  | vtime (iso : String)
  deriving DecidableEq, Repr

/-- `pd.isna(value)`: true for NaN/NaT and None. -/
def pd_isna : Value → Bool
  | .vnull => true
  | .vnan => true
  | _ => false

/-- Python truthiness of a (cleaned) cell value: `None` is falsy, an empty
string is falsy, numeric zero is falsy.  (Float NaN is truthy in Python;
it never reaches a truthiness test in the loader because cleanup has
already replaced it by `None`.) -/
def py_truthy : Value → Bool
  | .vnull => false
  | .vnan => true
  | .vstr s => !(s == "")
  | .vnum n => n != 0
  | .vtime _ => true

/-- Python `str(value)` for the values the loader can pass to `str` when
building a document id (post-cleanup these are never NaN/NaT). -/
def py_str : Value → String
  | .vnull => "None"
  | .vnan => "nan"
  | .vstr s => s
  | .vnum n => toString n
  | .vtime iso => iso

/-- A row: one record of `df.to_dict('records')` — an association list of
field name to cell value (keys unique in practice). -/
abbrev Row := List (String × Value)

/-- A DataFrame: a list of rows, all sharing the same columns. -/
abbrev Df := List Row

/-- Lookup of a field in a row (Python `record[key]` / `key in record`). -/
def getVal (k : String) : List (String × Value) → Option Value
  | [] => none
  | (k', v) :: rest => if k' = k then some v else getVal k rest

/-- Column assignment restricted to one row: `df[k] = v` replaces the value
of an existing column `k`, or appends the column when absent. -/
def setVal (k : String) (v : Value) : List (String × Value) → List (String × Value)
  | [] => [(k, v)]
  | (k', v') :: rest => if k' = k then (k, v) :: rest else (k', v') :: setVal k v rest

/-! ## The per-row cleanup of `index_dataframe` (elasticsearch_indexer.py 262-271) -/

/-- One cell of the cleanup loop: `pd.isna(value)` becomes `None`; a
`pd.Timestamp`/`datetime` becomes its `isoformat()` string; everything
else is kept.  (The inner `if not pd.isna(value)` on the timestamp branch
is redundant in the source: NaT is already caught by the first branch.) -/
def cleanValue : Value → Value
  | .vnull => .vnull
  | .vnan => .vnull
  | .vtime iso => .vstr iso
  | v => v

/-- `cleaned_record`: the cleanup applied to every field of a record. -/
def cleanRecord (r : List (String × Value)) : List (String × Value) :=
  r.map (fun p => (p.1, cleanValue p.2))

/-! ## Bulk actions (elasticsearch_indexer.py 273-282) -/

/-- One bulk action: destination index, document source, optional
explicit `_id`. -/
structure Action where
  index : String
  source : List (String × Value)
  id : Option String
  deriving DecidableEq, Repr

/-- Build the action for one record: clean the record, then set `_id` to
`str(cleaned_record[id_field])` exactly when an `id_field` was supplied,
it is a non-empty string, the cleaned record contains it, and its cleaned
value is truthy (lines 273-282). -/
def mkAction (index_name : String) (id_field : Option String)
    (record : List (String × Value)) : Action :=
  let cleaned := cleanRecord record
  let docId : Option String :=
    match id_field with
    | none => none
    | some f =>
      if f = "" then none
      else
        match getVal f cleaned with
        | none => none
        | some v => if py_truthy v then some (py_str v) else none
  ⟨index_name, cleaned, docId⟩

/-- Outcome of one `index_dataframe` call: the returned count, the bulk
actions that were prepared, and whether `helpers.bulk` was invoked. -/
structure IndexResult where
  count : Nat
  actions : List Action
  bulkCalled : Bool
  deriving DecidableEq, Repr

/-- `ElasticsearchIndexer.index_dataframe` (lines 238-308).

`df = none` models the Python `df is None` case.  The external
`helpers.bulk` call is a parameter keyed by index name: `.ok n` is a
normal return with `n` successes, `.error` a raised exception (the
`except` branch returns 0).  The `indexed_at` stamp is the column
assignment `df['indexed_at'] = datetime.now().isoformat()` applied to a
copy of the caller's frame. -/
def index_dataframe (index_name : String) (df : Option Df) (id_field : Option String)
    (now : String) (bulk : String → List Action → Except String Nat) : IndexResult :=
  match df with
  | none => ⟨0, [], false⟩
  | some rows =>
    if rows.isEmpty then ⟨0, [], false⟩
    else
      let stamped := rows.map (fun r => setVal "indexed_at" (.vstr now) r)
      let actions := stamped.map (mkAction index_name id_field)
      match bulk index_name actions with
      | .ok n => ⟨n, actions, true⟩
      | .error _ => ⟨0, actions, true⟩

/-! ## Entity types and the full load (elasticsearch_indexer.py 310-347) -/

inductive EntityType where
  | invoices | purchases | items | projects | customers | objects | accounts | suppliers
  deriving DecidableEq, Repr

/-- The index name used for each entity type. -/
def indexNameOf : EntityType → String
  | .invoices => "invoices"
  | .purchases => "purchases"
  | .items => "items"
  | .projects => "projects"
  | .customers => "customers"
  | .objects => "objects"
  | .accounts => "accounts"
  | .suppliers => "suppliers"

/-- The designated key field passed as `id_field` for each entity type
(lines 323-345): `number` for invoices and purchases, `code` otherwise. -/
def idFieldOf : EntityType → String
  | .invoices => "number"
  | .purchases => "number"
  | _ => "code"

/-- The fixed order in which `index_all_data` processes entity types
(lines 323-345). -/
def loadOrder : List EntityType :=
  [.invoices, .purchases, .items, .projects, .customers, .objects, .accounts, .suppliers]

/-- `ElasticsearchIndexer.index_all_data` (lines 310-347): for each entity
type, when the key is present in the input dictionary (`data e = some df?`),
call `index_dataframe` with that entity type's id field.  `data e = none`
models an absent dictionary key; `some none` a present key holding Python
`None`.  (`create_index_mappings` is called first; it catches every
exception internally and its store effects are external, so it contributes
nothing to the result.) -/
def index_all_data (data : EntityType → Option (Option Df)) (now : String)
    (bulk : String → List Action → Except String Nat) : List (EntityType × IndexResult) :=
  loadOrder.filterMap (fun e =>
    match data e with
    | none => none
    | some df => some (e, index_dataframe (indexNameOf e) df (some (idFieldOf e)) now bulk))

/-! ## The fetch side (directo_connector.py 197-218) -/

/-- `DirectoConnector.get_all_financial_data`: builds the dictionary of all
eight entity types by calling the per-entity fetchers in order.  Each
fetch is a blocking call that either returns a DataFrame or raises
(`Except.error`); Python evaluates the dict literal's values left to
right, so the first raised error aborts the remaining fetches. -/
def get_all_financial_data (fetch : EntityType → Except String Df) :
    Except String (List (EntityType × Df)) := do
  let invoices ← fetch .invoices
  let customers ← fetch .customers
  let purchases ← fetch .purchases
  let items ← fetch .items
  let projects ← fetch .projects
  let objects ← fetch .objects
  let accounts ← fetch .accounts
  let suppliers ← fetch .suppliers
  pure [(.invoices, invoices), (.customers, customers), (.purchases, purchases),
        (.items, items), (.projects, projects), (.objects, objects),
        (.accounts, accounts), (.suppliers, suppliers)]

/-- Dictionary lookup on the fetched dataset. -/
def dataLookup (l : List (EntityType × Df)) (e : EntityType) : Option (Option Df) :=
  match l.find? (fun p => p.1 = e) with
  | some p => some (some p.2)
  | none => none

/-! ## The pipeline (main_openai.py 68-102) -/

/-- `FinancialAIAssistant.run_etl_pipeline`: fetch everything, then load
everything; any exception escaping the `try` block (in practice: any fetch
error, since the loader catches its own) is caught at this top level and
reported as overall failure (`false`).  The second component records which
entity types the loader processed. -/
def run_etl_pipeline (fetch : EntityType → Except String Df)
    (bulk : String → List Action → Except String Nat) (now : String) :
    Bool × List (EntityType × IndexResult) :=
  match get_all_financial_data fetch with
  | .error _ => (false, [])
  | .ok data => (true, index_all_data (dataLookup data) now bulk)

/-! ## JSON values (ai_query_handler_openai.py)

The query handler passes parsed JSON around as Python dicts/lists; `JVal`
is that universe.  The top level of a query spec is an object, modelled
directly as its field list. -/

inductive JVal where
  | jnull
  | jbool (b : Bool)
  | jnum (n : Int)
  | jstr (s : String)
  | jarr (xs : List JVal)
  | jobj (fields : List (String × JVal))

/-- Python truthiness of a JSON value (`if aggs:`): empty dict/list/string
and zero and `None`/`False` are falsy. -/
def jTruthy : JVal → Bool
  | .jnull => false
  | .jbool b => b
  | .jnum n => n != 0
  | .jstr s => !(s == "")
  | .jarr xs => !xs.isEmpty
  | .jobj fs => !fs.isEmpty

/-- Dict lookup on an object's field list (`spec.get(k)` when present). -/
def jLookup (k : String) : List (String × JVal) → Option JVal
  | [] => none
  | (k', v) :: rest => if k' = k then some v else jLookup k rest

/-- Decode a JSON array of strings; `none` when the value is not a list of
strings (Python's `','.join` would then raise). -/
def asStrList : JVal → Option (List String)
  | .jarr xs => xs.mapM (fun v => match v with | .jstr s => some s | _ => none)
  | _ => none

/-! ## Query executor (ai_query_handler_openai.py 140-166) -/

/-- The body handed to `es.search`: the query clause, the optional `aggs`
clause, and the requested `size`. -/
structure EsBody where
  query : JVal
  aggs : Option JVal
  size : Nat

/-- One `es.search` invocation: the comma-joined index argument and the body. -/
structure SearchCall where
  index : String
  body : EsBody

/-- The default query: `{"match_all": {}}`. -/
def matchAllQuery : JVal := .jobj [("match_all", .jobj [])]

/-- `AIQueryHandler._execute_elasticsearch_query` (lines 140-166), up to the
external `es.search` call: `indices` defaults to `['invoices']`, `query`
to match-all, `aggs` to `{}`; a truthy `aggs` forces `size = 0`, otherwise
`size = 100`; one search is issued over `','.join(indices)`.  `.error`
models the `TypeError` Python's join raises when `indices` is not a list
of strings. -/
def execute_elasticsearch_query (spec : List (String × JVal)) : Except String SearchCall :=
  let indicesVal := (jLookup "indices" spec).getD (.jarr [.jstr "invoices"])
  let query := (jLookup "query" spec).getD matchAllQuery
  let aggs := (jLookup "aggs" spec).getD (.jobj [])
  match asStrList indicesVal with
  | none => .error "sequence item: expected str instance"
  | some indices =>
    let body : EsBody :=
      if jTruthy aggs then ⟨query, some aggs, 0⟩ else ⟨query, none, 100⟩
    .ok ⟨String.intercalate "," indices, body⟩

/-! ## Python string primitives for the code-fence stripping
(ai_query_handler_openai.py 122-138)

`str.split`, `in`, and `str.strip` are re-implemented on `List Char` with
Python's semantics (non-overlapping left-to-right splitting on a non-empty
separator; whitespace stripping at both ends). -/

/-- Find the first occurrence of `sep` in `s`: `some (pre, post)` splits `s`
as `pre ++ sep ++ post` at the leftmost occurrence. -/
def findSplit (sep : List Char) : List Char → Option (List Char × List Char)
  | [] => if sep = [] then some ([], []) else none
  | c :: rest =>
    if sep.isPrefixOf (c :: rest) then some ([], (c :: rest).drop sep.length)
    else
      match findSplit sep rest with
      | some (pre, post) => some (c :: pre, post)
      | none => none

theorem findSplit_length {sep : List Char} (hsep : sep ≠ []) :
    ∀ {s pre post : List Char}, findSplit sep s = some (pre, post) →
      post.length < s.length := by
  intro s
  induction s with
  | nil => intro pre post h; simp [findSplit, hsep] at h
  | cons c rest ih =>
    intro pre post h
    rw [findSplit] at h
    split at h
    · rename_i hpre
      have hle : 1 ≤ sep.length := by
        cases sep with
        | nil => exact absurd rfl hsep
        | cons a l => simp
      injection h with h'
      have h1 : post = (c :: rest).drop sep.length := (Prod.mk.injEq _ _ _ _ ▸ h').2.symm ▸ rfl
      have := congrArg Prod.snd h'
      simp at this
      subst this
      simp only [List.length_drop, List.length_cons]
      omega
    · revert h
      match hf : findSplit sep rest with
      | some (pre', post') =>
        intro h
        injection h with h'
        have := congrArg Prod.snd h'
        simp at this
        subst this
        have := ih hf
        simp only [List.length_cons]
        omega
      | none => intro h; exact absurd h (by simp)

/-- Python `s.split(sep)` for a non-empty separator.  (Python raises on an
empty separator; the source only ever splits on the fence markers.) -/
def pySplit (sep : List Char) (s : List Char) : List (List Char) :=
  if h : sep = [] then [s]
  else
    match hf : findSplit sep s with
    | none => [s]
    | some (pre, post) => pre :: pySplit sep post
termination_by s.length
decreasing_by exact findSplit_length h hf

/-- Python `sub in s` (substring containment). -/
def pyContains (s sub : List Char) : Bool := (findSplit sub s).isSome

/-- The whitespace set of Python's `str.strip()` restricted to the ASCII
whitespace the pipeline can encounter. -/
def pyIsSpace (c : Char) : Bool :=
  c = ' ' || c = '\t' || c = '\n' || c = '\r'

/-- Python `s.strip()`. -/
def pyStrip (s : List Char) : List Char :=
  ((s.dropWhile pyIsSpace).reverse.dropWhile pyIsSpace).reverse

/-- Element access `xs[i]` of the split list (guarded in the source by the
containment checks, so the default is never reached there). -/
def pyAt (xs : List (List Char)) (i : Nat) : List Char := xs.getD i []

/-- The fence-stripping step of `_build_elasticsearch_query` (lines 126-130):
`response_text.split("```json")[1].split("```")[0].strip()` when the text
contains a `json`-tagged fence, the untagged variant when it contains a
bare fence, and the text unchanged otherwise. -/
def extract_json_text (response_text : List Char) : List Char :=
  let fenceJson := "```json".data
  let fence := "```".data
  if pyContains response_text fenceJson then
    pyStrip (pyAt (pySplit fence (pyAt (pySplit fenceJson response_text) 1)) 0)
  else if pyContains response_text fence then
    pyStrip (pyAt (pySplit fence (pyAt (pySplit fence response_text) 1)) 0)
  else response_text

/-- `AIQueryHandler._build_elasticsearch_query` (lines 76-138), downstream
of the oracle response: strip optional fences, then parse with
`json.loads` (the external parameter `loads`; `.error` is the raised
`json.JSONDecodeError`, re-raised by the source's `except` branch). -/
def build_elasticsearch_query
    (loads : List Char → Except String (List (String × JVal)))
    (response_text : List Char) : Except String (List (String × JVal)) :=
  loads (extract_json_text response_text)

/-! ## Result formatting (ai_query_handler_openai.py 168-191) -/

/-- `json.dumps` of a JSON value, as a character list.  The source pretty
prints with `indent=2`; the claims do not depend on whitespace placement,
so the serialisation here is the compact one (the indentation is elided). -/
def dumpsL : JVal → List Char
  | .jnull => "null".data
  | .jbool b => if b then "true".data else "false".data
  | .jnum n => (toString n).data
  | .jstr s => '"' :: s.data ++ ['"']
  | .jarr xs => '[' :: (dumpsItems xs) ++ [']']
  | .jobj fs => '\x7b' :: (dumpsFields fs) ++ ['\x7d']
where
  dumpsItems : List JVal → List Char
    | [] => []
    | [x] => dumpsL x
    | x :: y :: rest => dumpsL x ++ ',' :: ' ' :: dumpsItems (y :: rest)
  dumpsFields : List (String × JVal) → List Char
    | [] => []
    | [(k, v)] => '"' :: k.data ++ '"' :: ':' :: ' ' :: dumpsL v
    | (k, v) :: p :: rest =>
        '"' :: k.data ++ '"' :: ':' :: ' ' :: dumpsL v ++ ',' :: ' ' :: dumpsFields (p :: rest)

/-- `json.dumps` as a string. -/
def dumps (v : JVal) : String := ⟨dumpsL v⟩

/-- The `hits` sub-object of an Elasticsearch response:
`result['hits']['total']['value']` and the hit list, each hit reduced to
its `_source`. -/
structure HitsBlock where
  total_value : Nat
  hits : List JVal

/-- An Elasticsearch search response as `_format_results_for_ai` reads it:
an optional `aggregations` key and an optional `hits` key. -/
structure SearchResult where
  aggregations : Option JVal
  hits : Option HitsBlock

/-- The `formatted` list built by `_format_results_for_ai` (lines 178-190):
the aggregation header and dump when `'aggregations' in es_results`, then
the document header and the `_source` dumps of the first 20 hits when
`'hits' in es_results` and the total is positive. -/
def format_sections (r : SearchResult) : List String :=
  (match r.aggregations with
   | some a => ["Aggregation Results:", dumps a]
   | none => []) ++
  (match r.hits with
   | some h =>
     if h.total_value > 0 then
       ("\nDocument Hits (" ++ toString h.total_value ++ " total):") ::
         (h.hits.take 20).map dumps
     else []
   | none => [])

/-- `AIQueryHandler._format_results_for_ai`: `"\n".join(formatted)`. -/
def format_results_for_ai (r : SearchResult) : String :=
  String.intercalate "\n" (format_sections r)

/-! ## Question answering (ai_query_handler_openai.py 193-249) -/

/-- The apology string of the outer `except` branch (line 249), with the
exception's message interpolated. -/
def apologyString (e : String) : String :=
  "I encountered an error processing your question: " ++ e ++
    ". Please try rephrasing your question or check if the data is available in the system."

/-- The fallible pipeline inside `answer_question`'s `try` block: oracle
translation call → fence-strip + JSON parse → query build → store search →
result formatting → oracle analysis call.  Each external call is a
parameter returning `Except` (an `.error` is a raised exception). -/
def answerPipeline
    (oracleTranslate : String → Except String (List Char))
    (loads : List Char → Except String (List (String × JVal)))
    (search : SearchCall → Except String SearchResult)
    (oracleAnalyze : String → String → Except String String)
    (question : String) : Except String String := do
  let responseText ← oracleTranslate question
  let querySpec ← build_elasticsearch_query loads responseText
  let call ← execute_elasticsearch_query querySpec
  let esResults ← search call
  let formattedResults := format_results_for_ai esResults
  oracleAnalyze question formattedResults

/-- `AIQueryHandler.answer_question` (lines 193-249): the whole pipeline
runs inside one `try`; any exception is caught and converted to the
apology string embedding `str(e)`.  The function always returns a string. -/
def answer_question
    (oracleTranslate : String → Except String (List Char))
    (loads : List Char → Except String (List (String × JVal)))
    (search : SearchCall → Except String SearchResult)
    (oracleAnalyze : String → String → Except String String)
    (question : String) : String :=
  match answerPipeline oracleTranslate loads search oracleAnalyze question with
  | .ok answer => answer
  | .error e => apologyString e

/-! ## Declared invoice schema and the verification script
(elasticsearch_indexer.py 80-108, verify_data_quick.py 90-100) -/

/-- The field names of the invoice index mapping declared by
`create_index_mappings` (lines 82-105). -/
def invoiceMappingFields : List String :=
  ["number", "date", "duedate", "transactiondate", "vatzone", "paymentterm",
   "country", "currency", "currencyrate", "customercode", "customername",
   "comment", "address1", "address2", "address3", "salesman", "confirmed",
   "netamount", "vat", "balance", "totalamount", "ts", "indexed_at"]

/-- One single-metric aggregation of the verification script: its name,
its operation, and the field it targets. -/
structure StatAgg where
  name : String
  op : String
  field : String
  deriving DecidableEq, Repr

/-- The `aggs` body of the invoice-statistics search in
`verify_indexed_data` (verify_data_quick.py 90-100). -/
def verifyInvoiceStatsAggs : List StatAgg :=
  [⟨"min_date", "min", "transactiondate"⟩,
   ⟨"max_date", "max", "transactiondate"⟩,
   ⟨"total_amount", "sum", "total"⟩]

/-! ## Heap-level view of `index_dataframe` (elasticsearch_indexer.py 253-255)

Python DataFrames are mutable objects; `df = df.copy()` followed by
`df['indexed_at'] = ...` allocates a fresh frame and mutates only that
copy.  To state the frame property, the same function is embedded once
more with the object store explicit: a list of frames addressed by
position, where `copy` appends a fresh frame and the column assignment
updates the store at the copy's address. -/
def index_dataframe_heap (heap : List Df) (ref : Nat) (index_name : String)
    (id_field : Option String) (now : String)
    (bulk : String → List Action → Except String Nat) : List Df × IndexResult :=
  let df := heap.getD ref []
  if df.isEmpty then (heap, ⟨0, [], false⟩)
  else
    -- df = df.copy(): allocate a fresh frame holding the same rows
    let copyRef := heap.length
    let heap1 := heap ++ [df]
    -- df['indexed_at'] = datetime.now().isoformat(): mutate the copy in place
    let heap2 := heap1.set copyRef ((heap1.getD copyRef []).map (setVal "indexed_at" (.vstr now)))
    let stamped := heap2.getD copyRef []
    let actions := stamped.map (mkAction index_name id_field)
    match bulk index_name actions with
    | .ok n => (heap2, ⟨n, actions, true⟩)
    | .error _ => (heap2, ⟨0, actions, true⟩)

/-! ## Helper lemmas -/

/-- A store stand-in that accepts every bulk request, reporting every
action as indexed. -/
def bulkOk : String → List Action → Except String Nat :=
  fun _ actions => .ok actions.length

/-- The prepared actions of a non-empty load: one action per row, each row
stamped with `indexed_at` before cleanup. -/
theorem index_dataframe_actions (index_name : String) (df : Df) (id_field : Option String)
    (now : String) (bulk : String → List Action → Except String Nat) (h : df ≠ []) :
    (index_dataframe index_name (some df) id_field now bulk).actions =
      df.map (fun r => mkAction index_name id_field (setVal "indexed_at" (.vstr now) r)) := by
  have hne : df.isEmpty = false := by
    cases df with
    | nil => exact absurd rfl h
    | cons a l => rfl
  simp only [index_dataframe, hne, Bool.false_eq_true, if_false]
  cases hb : bulk index_name (List.map (mkAction index_name id_field)
      (List.map (fun r => setVal "indexed_at" (Value.vstr now) r) df)) <;>
    simp [hb, List.map_map, Function.comp]

theorem getD_map_of_lt {α β : Type} (F : α → β) (l : List α) (i : Nat) (d : α) (d' : β)
    (h : i < l.length) : (l.map F).getD i d' = F (l.getD i d) := by
  rw [List.getD_eq_getElem l d h, List.getD_eq_getElem (l.map F) d' (by simpa using h)]
  simp

/-- Cleanup commutes with field lookup. -/
theorem getVal_cleanRecord (f : String) (r : List (String × Value)) :
    getVal f (cleanRecord r) = (getVal f r).map cleanValue := by
  induction r with
  | nil => rfl
  | cons p rest ih =>
    obtain ⟨k, v⟩ := p
    simp only [cleanRecord, List.map_cons, getVal]
    by_cases hk : k = f
    · simp [hk]
    · simp only [hk, if_false]
      simpa [cleanRecord] using ih

/-- Setting one column leaves the lookup of any other field unchanged. -/
theorem getVal_setVal_ne (f k : String) (v : Value) (r : List (String × Value))
    (h : f ≠ k) : getVal f (setVal k v r) = getVal f r := by
  induction r with
  | nil =>
    simp only [setVal, getVal]
    rw [if_neg (fun hc => h hc.symm)]
  | cons p rest ih =>
    obtain ⟨k', v'⟩ := p
    by_cases hk : k' = k
    · subst hk
      simp only [setVal, if_pos rfl, getVal]
      rw [if_neg (fun hc => h hc.symm), if_neg (fun hc => h hc.symm)]
    · simp only [setVal, if_neg hk, getVal]
      by_cases hf : k' = f
      · rw [if_pos hf, if_pos hf]
      · rw [if_neg hf, if_neg hf]
        exact ih

/-- The assigned column is present after the assignment. -/
theorem setVal_mem (k : String) (v : Value) (r : List (String × Value)) :
    (k, v) ∈ setVal k v r := by
  induction r with
  | nil => simp [setVal]
  | cons p rest ih =>
    obtain ⟨k', v'⟩ := p
    by_cases hk : k' = k
    · simp [setVal, hk]
    · simp only [setVal, if_neg hk]
      exact List.mem_cons_of_mem _ ih

/-- Fields other than the assigned column survive the assignment. -/
theorem mem_setVal_of_ne (k k0 : String) (v v0 : Value) (r : List (String × Value))
    (hm : (k, v) ∈ r) (h : k ≠ k0) : (k, v) ∈ setVal k0 v0 r := by
  induction r with
  | nil => simp at hm
  | cons p rest ih =>
    obtain ⟨k', v'⟩ := p
    by_cases hk : k' = k0
    · subst hk
      simp only [setVal, if_pos rfl]
      rcases List.mem_cons.mp hm with heq | htail
      · exact absurd (congrArg Prod.fst heq) h
      · exact List.mem_cons_of_mem _ htail
    · simp only [setVal, if_neg hk]
      rcases List.mem_cons.mp hm with heq | htail
      · rw [heq]
        exact List.mem_cons_self _ _
      · exact List.mem_cons_of_mem _ (ih htail)

/-- Cleanup never leaves a NaN sentinel or an unserialised date value. -/
theorem cleanValue_not_nan_not_time (v : Value) :
    cleanValue v ≠ .vnan ∧ ∀ t, cleanValue v ≠ .vtime t := by
  cases v <;> simp [cleanValue]

/-- Cleanup sends every null-equivalent value to the explicit null. -/
theorem cleanValue_of_isna (v : Value) (h : pd_isna v = true) : cleanValue v = .vnull := by
  cases v <;> simp_all [pd_isna, cleanValue]

/-! ## C9 — the verification script's revenue field vs the declared schema -/

/-- C9: the verification/statistics script's invoice total-revenue
aggregation (`verify_data_quick.py` lines 90-100) sums over a field named
`total`, while the invoice index mapping declared by
`create_index_mappings` declares `totalamount` and no field named
`total`. -/
theorem c9_verify_total_field_mismatch :
    verifyInvoiceStatsAggs.find? (fun a => a.name = "total_amount") =
        some ⟨"total_amount", "sum", "total"⟩
    ∧ "total" ∉ invoiceMappingFields
    ∧ "totalamount" ∈ invoiceMappingFields := by
  refine ⟨rfl, ?_, ?_⟩ <;> decide

/-! ## C2 — document identity from the designated key field -/

/-- The `i`-th prepared bulk action of a load. -/
def actionAt (index_name : String) (df : Option Df) (id_field : Option String)
    (now : String) (bulk : String → List Action → Except String Nat) (i : Nat) : Action :=
  (index_dataframe index_name df id_field now bulk).actions.getD i ⟨"", [], none⟩

theorem actionAt_eq (index_name : String) (df : Df) (id_field : Option String)
    (now : String) (bulk : String → List Action → Except String Nat) (i : Nat)
    (hi : i < df.length) :
    actionAt index_name (some df) id_field now bulk i =
      mkAction index_name id_field (setVal "indexed_at" (.vstr now) (df.getD i [])) := by
  have hdf : df ≠ [] := by
    intro hc
    rw [hc] at hi
    simp at hi
  unfold actionAt
  rw [index_dataframe_actions index_name df id_field now bulk hdf,
    getD_map_of_lt _ df i [] _ hi]

/-- C2: for every row-set and designated key field, when the row carries the
key field with a truthy ("non-empty") value — a non-empty string or a
non-zero number — the written document's `_id` is the string form of that
value; when the key field is absent, null/NaN, or the empty string, no
`_id` is assigned (the store will assign one) and the loader still
produces the action without failing. -/
theorem c2_document_identity (index_name : String) (df : Df) (f now : String)
    (bulk : String → List Action → Except String Nat) (i : Nat)
    (hi : i < df.length) (hf0 : f ≠ "") (hfi : f ≠ "indexed_at") :
    (∀ s, getVal f (df.getD i []) = some (.vstr s) → s ≠ "" →
        (actionAt index_name (some df) (some f) now bulk i).id = some s)
    ∧ (∀ n, getVal f (df.getD i []) = some (.vnum n) → n ≠ 0 →
        (actionAt index_name (some df) (some f) now bulk i).id = some (toString n))
    ∧ (getVal f (df.getD i []) = none →
        (actionAt index_name (some df) (some f) now bulk i).id = none)
    ∧ (∀ v, getVal f (df.getD i []) = some v → py_truthy (cleanValue v) = false →
        (actionAt index_name (some df) (some f) now bulk i).id = none) := by
  have hid : (actionAt index_name (some df) (some f) now bulk i).id =
      (match (getVal f (df.getD i [])).map cleanValue with
       | none => none
       | some v => if py_truthy v then some (py_str v) else none) := by
    rw [actionAt_eq index_name df (some f) now bulk i hi]
    simp only [mkAction]
    rw [getVal_cleanRecord, getVal_setVal_ne f "indexed_at" _ _ hfi, if_neg hf0]
  refine ⟨?_, ?_, ?_, ?_⟩
  · intro s hs hne
    rw [hid, hs]
    simp [cleanValue, py_truthy, py_str, hne]
  · intro n hn hne
    rw [hid, hn]
    simp [cleanValue, py_truthy, py_str, hne]
  · intro h0
    rw [hid, h0]
    rfl
  · intro v hv htr
    rw [hid, hv]
    simp [htr]

/-- C2 witness: a row whose `number` field holds the non-empty string
`"A1"` is written with `_id = "A1"`. -/
theorem c2_witness :
    (actionAt "invoices" (some [[("number", Value.vstr "A1")]]) (some "number") "T" bulkOk 0).id
      = some "A1" :=
  (c2_document_identity "invoices" [[("number", Value.vstr "A1")]] "number" "T" bulkOk 0
    (by decide) (by decide) (by decide)).1 "A1" (by decide) (by decide)

/-! ## C5 — explicit nulls, serialised timestamps, `indexed_at` stamp -/

/-- The `indexed_at` stamp survives cleanup into the document source. -/
theorem indexed_at_mem_clean (now : String) (r : List (String × Value)) :
    ("indexed_at", Value.vstr now) ∈ cleanRecord (setVal "indexed_at" (.vstr now) r) := by
  have h := setVal_mem "indexed_at" (Value.vstr now) r
  have h2 := List.mem_map_of_mem (fun p : String × Value => (p.1, cleanValue p.2)) h
  simpa [cleanRecord, cleanValue] using h2

/-- C5: every document source written by the loader (i) carries no NaN
sentinel and no unserialised date value, (ii) contains the `indexed_at`
field stamped with the load time, (iii) keeps every key of the stamped
row (no absent keys), and (iv) maps every null-equivalent (NaN/None) cell
of the original row to an explicit null. -/
theorem c5_loader_null_and_timestamp_normalisation (index_name : String) (df : Df)
    (id_field : Option String) (now : String)
    (bulk : String → List Action → Except String Nat) (i : Nat) (hi : i < df.length) :
    (∀ p ∈ (actionAt index_name (some df) id_field now bulk i).source,
        p.2 ≠ .vnan ∧ ∀ t, p.2 ≠ .vtime t)
    ∧ ("indexed_at", Value.vstr now) ∈ (actionAt index_name (some df) id_field now bulk i).source
    ∧ (actionAt index_name (some df) id_field now bulk i).source.map Prod.fst
        = (setVal "indexed_at" (.vstr now) (df.getD i [])).map Prod.fst
    ∧ (∀ k v, (k, v) ∈ df.getD i [] → k ≠ "indexed_at" → pd_isna v = true →
        (k, Value.vnull) ∈ (actionAt index_name (some df) id_field now bulk i).source) := by
  have hsrc : (actionAt index_name (some df) id_field now bulk i).source =
      cleanRecord (setVal "indexed_at" (.vstr now) (df.getD i [])) := by
    rw [actionAt_eq index_name df id_field now bulk i hi]
    rfl
  refine ⟨?_, ?_, ?_, ?_⟩
  · intro p hp
    rw [hsrc] at hp
    obtain ⟨q, _, hq⟩ := List.mem_map.mp hp
    rw [← hq]
    exact cleanValue_not_nan_not_time q.2
  · rw [hsrc]
    exact indexed_at_mem_clean now _
  · rw [hsrc]
    simp [cleanRecord, List.map_map, Function.comp]
  · intro k v hkv hk hna
    rw [hsrc]
    have hmem := mem_setVal_of_ne k "indexed_at" v (Value.vstr now) _ hkv hk
    have h2 := List.mem_map_of_mem (fun p : String × Value => (p.1, cleanValue p.2)) hmem
    simpa [cleanRecord, cleanValue_of_isna v hna] using h2

/-- C5 witness: a row with a NaN cell and a date cell is written with an
explicit null, and the document carries the `indexed_at` stamp. -/
theorem c5_witness :
    ("vat", Value.vnull)
        ∈ (actionAt "invoices" (some [[("vat", Value.vnan), ("date", Value.vtime "2024-01-02T00:00:00")]])
            (some "number") "T" bulkOk 0).source
    ∧ ("indexed_at", Value.vstr "T")
        ∈ (actionAt "invoices" (some [[("vat", Value.vnan), ("date", Value.vtime "2024-01-02T00:00:00")]])
            (some "number") "T" bulkOk 0).source :=
  ⟨(c5_loader_null_and_timestamp_normalisation "invoices"
      [[("vat", Value.vnan), ("date", Value.vtime "2024-01-02T00:00:00")]]
      (some "number") "T" bulkOk 0 (by decide)).2.2.2 "vat" Value.vnan
      (by decide) (by decide) (by decide),
   (c5_loader_null_and_timestamp_normalisation "invoices"
      [[("vat", Value.vnan), ("date", Value.vtime "2024-01-02T00:00:00")]]
      (some "number") "T" bulkOk 0 (by decide)).2.1⟩

/-! ## C6 — empty row-sets are skipped without failing the run -/

/-- All entity types are in the loader's fixed processing order. -/
theorem mem_loadOrder (e : EntityType) : e ∈ loadOrder := by
  cases e <;> simp [loadOrder]

/-- When every fetch succeeds, the whole dataset is produced. -/
theorem get_all_ok (fetch : EntityType → Except String Df)
    (h : ∀ t, ∃ df, fetch t = .ok df) :
    ∃ l, get_all_financial_data fetch = .ok l := by
  obtain ⟨d1, h1⟩ := h .invoices
  obtain ⟨d2, h2⟩ := h .customers
  obtain ⟨d3, h3⟩ := h .purchases
  obtain ⟨d4, h4⟩ := h .items
  obtain ⟨d5, h5⟩ := h .projects
  obtain ⟨d6, h6⟩ := h .objects
  obtain ⟨d7, h7⟩ := h .accounts
  obtain ⟨d8, h8⟩ := h .suppliers
  refine ⟨[(.invoices, d1), (.customers, d2), (.purchases, d3), (.items, d4),
    (.projects, d5), (.objects, d6), (.accounts, d7), (.suppliers, d8)], ?_⟩
  simp [get_all_financial_data, h1, h2, h3, h4, h5, h6, h7, h8, Bind.bind, Except.bind]
  rfl

/-- C6: a `None` or empty row-set produces a zero count, prepares no
actions, and makes no bulk call; every entity type present in the input
is still processed independently; and a run whose fetches all succeed
(whatever row-sets they return, including empty ones) reports overall
success. -/
theorem c6_empty_rowset_skipped (data : EntityType → Option (Option Df)) (now : String)
    (bulk : String → List Action → Except String Nat)
    (fetch : EntityType → Except String Df) (e : EntityType) :
    index_dataframe (indexNameOf e) (some []) (some (idFieldOf e)) now bulk = ⟨0, [], false⟩
    ∧ index_dataframe (indexNameOf e) none (some (idFieldOf e)) now bulk = ⟨0, [], false⟩
    ∧ (∀ e' df', data e' = some df' →
        (e', index_dataframe (indexNameOf e') df' (some (idFieldOf e')) now bulk)
          ∈ index_all_data data now bulk)
    ∧ ((∀ t, ∃ df, fetch t = .ok df) → (run_etl_pipeline fetch bulk now).1 = true) := by
  refine ⟨rfl, rfl, ?_, ?_⟩
  · intro e' df' h
    refine List.mem_filterMap.mpr ⟨e', mem_loadOrder e', ?_⟩
    simp [h]
  · intro hall
    obtain ⟨l, hl⟩ := get_all_ok fetch hall
    simp [run_etl_pipeline, hl]

/-- C6 witness: invoices fetch an empty row-set, customers a non-empty one —
the run still reports success, and the loader's call for an empty frame is
the no-op result. -/
theorem c6_witness :
    index_dataframe "invoices" (some []) (some "number") "T" bulkOk = ⟨0, [], false⟩
    ∧ (run_etl_pipeline
        (fun t => if t = .invoices then .ok ([] : Df) else .ok [[("code", Value.vstr "X")]])
        bulkOk "T").1 = true :=
  ⟨(c6_empty_rowset_skipped (fun _ => none) "T" bulkOk
      (fun t => if t = .invoices then .ok ([] : Df) else .ok [[("code", Value.vstr "X")]])
      .invoices).1,
   (c6_empty_rowset_skipped (fun _ => none) "T" bulkOk
      (fun t => if t = .invoices then .ok ([] : Df) else .ok [[("code", Value.vstr "X")]])
      .invoices).2.2.2
     (fun t => by cases t <;> exact ⟨_, rfl⟩)⟩

/-! ## C10 — the loader does not mutate the caller's row-set -/

/-- C10: the heap-level loader leaves the caller's frame untouched — reading
the caller's reference before and after the call gives the same rows —
while the `indexed_at` stamp still appears in every prepared document
(it was applied to the internal copy only). -/
theorem c10_caller_frame_unchanged (heap : List Df) (ref : Nat) (index_name : String)
    (id_field : Option String) (now : String)
    (bulk : String → List Action → Except String Nat) :
    ((index_dataframe_heap heap ref index_name id_field now bulk).1).getD ref []
        = heap.getD ref []
    ∧ ∀ a ∈ (index_dataframe_heap heap ref index_name id_field now bulk).2.actions,
        ("indexed_at", Value.vstr now) ∈ a.source := by
  by_cases hemp : (heap.getD ref []).isEmpty
  · constructor
    · simp only [index_dataframe_heap, if_pos hemp]
    · intro a ha
      simp only [index_dataframe_heap, if_pos hemp] at ha
      simp at ha
  · have href : ref < heap.length := by
      by_contra hnot
      have hnil : heap.getD ref [] = [] := by
        rw [List.getD_eq_getElem?_getD, List.getElem?_eq_none (by omega)]
        rfl
      exact hemp (by rw [hnil]; rfl)
    have hcopy : (heap ++ [heap.getD ref []]).getD heap.length [] = heap.getD ref [] := by
      rw [List.getD_eq_getElem?_getD, List.getElem?_concat_length]
      rfl
    have hstamped : ((heap ++ [heap.getD ref []]).set heap.length
        ((heap.getD ref []).map (setVal "indexed_at" (.vstr now)))).getD heap.length []
        = (heap.getD ref []).map (setVal "indexed_at" (.vstr now)) := by
      rw [List.getD_eq_getElem?_getD,
        List.getElem?_set_self (by simp [Nat.lt_succ_of_le (Nat.le_refl _)])]
      rfl
    have hframe : ((heap ++ [heap.getD ref []]).set heap.length
        ((heap.getD ref []).map (setVal "indexed_at" (.vstr now)))).getD ref []
        = heap.getD ref [] := by
      rw [List.getD_eq_getElem?_getD, List.getElem?_set_ne (by omega),
        List.getElem?_append_left href, ← List.getD_eq_getElem?_getD]
    constructor
    · simp only [index_dataframe_heap, if_neg hemp, hcopy, hstamped]
      cases hb : bulk index_name (((heap.getD ref []).map
          (setVal "indexed_at" (.vstr now))).map (mkAction index_name id_field)) <;>
        simp only [hb, hframe]
    · intro a ha
      simp only [index_dataframe_heap, if_neg hemp, hcopy, hstamped] at ha
      have ha' : a ∈ ((heap.getD ref []).map
          (setVal "indexed_at" (.vstr now))).map (mkAction index_name id_field) := by
        revert ha
        cases hb : bulk index_name (((heap.getD ref []).map
            (setVal "indexed_at" (.vstr now))).map (mkAction index_name id_field)) <;>
          simp [hb]
      rw [List.map_map] at ha'
      obtain ⟨r, _, hr⟩ := List.mem_map.mp ha'
      rw [← hr]
      exact indexed_at_mem_clean now r

/-- C10 witness: loading a one-frame heap leaves the caller's frame intact
while the prepared document carries the stamp. -/
theorem c10_witness :
    ((index_dataframe_heap ([[[("a", Value.vnan)]]] : List Df) 0 "invoices" (some "a") "T" bulkOk).1).getD 0 []
      = ([[[("a", Value.vnan)]]] : List Df).getD 0 [] :=
  (c10_caller_frame_unchanged ([[[("a", Value.vnan)]]] : List Df) 0 "invoices" (some "a") "T" bulkOk).1

/-! ## C3 — executor defaults and sizing -/

/-- C3 counterexample: a spec whose `aggs` key is *present* but holds the
empty object.  The claim says a present `aggs` forces `size = 0`; the
code's `if aggs:` is a truthiness test, so the empty object falls through
to `size = 100` and no `aggs` clause is sent. -/
theorem c3_counterexample_empty_aggs_present :
    (jLookup "aggs" [("aggs", JVal.jobj [])]).isSome = true
    ∧ execute_elasticsearch_query [("aggs", JVal.jobj [])]
        = .ok ⟨"invoices", ⟨matchAllQuery, none, 100⟩⟩ :=
  ⟨rfl, rfl⟩

/-- C3 (amended): a missing `indices` field defaults to the single
`invoices` collection and a missing `query` field defaults to match-all;
when `aggs` is present *and non-empty (truthy)* the issued search requests
zero documents, and otherwise — `aggs` absent, or present but empty — it
requests at most 100 documents; the one search goes over the comma-joined
named collections. -/
theorem c3_executor_defaults_amended (spec : List (String × JVal)) (call : SearchCall)
    (h : execute_elasticsearch_query spec = .ok call) :
    (jLookup "indices" spec = none → call.index = "invoices")
    ∧ (∀ l names, jLookup "indices" spec = some l → asStrList l = some names →
        call.index = String.intercalate "," names)
    ∧ (jLookup "query" spec = none → call.body.query = matchAllQuery)
    ∧ (∀ q, jLookup "query" spec = some q → call.body.query = q)
    ∧ (∀ a, jLookup "aggs" spec = some a → jTruthy a = true →
        call.body.size = 0 ∧ call.body.aggs = some a)
    ∧ (jLookup "aggs" spec = none → call.body.size = 100 ∧ call.body.aggs = none)
    ∧ (∀ a, jLookup "aggs" spec = some a → jTruthy a = false →
        call.body.size = 100 ∧ call.body.aggs = none) := by
  unfold execute_elasticsearch_query at h
  dsimp only at h
  rcases hS : asStrList ((jLookup "indices" spec).getD (.jarr [.jstr "invoices"])) with _ | names
  · rw [hS] at h
    simp at h
  · rw [hS] at h
    simp only [Except.ok.injEq] at h
    subst h
    refine ⟨?_, ?_, ?_, ?_, ?_, ?_, ?_⟩
    · intro hI
      rw [hI] at hS
      have heval : asStrList ((none : Option JVal).getD (.jarr [.jstr "invoices"]))
          = some ["invoices"] := rfl
      rw [heval] at hS
      injection hS with he
      subst he
      rfl
    · intro l names' hI hnames
      rw [hI] at hS
      simp only [Option.getD_some] at hS
      rw [hnames] at hS
      injection hS with he
      subst he
      rfl
    · intro hQ
      by_cases hT : jTruthy ((jLookup "aggs" spec).getD (.jobj [])) <;> simp [hT, hQ]
    · intro q hQ
      by_cases hT : jTruthy ((jLookup "aggs" spec).getD (.jobj [])) <;> simp [hT, hQ]
    · intro a hA htr
      refine ⟨?_, ?_⟩ <;> simp [hA, htr]
    · intro hA
      refine ⟨?_, ?_⟩ <;> simp [hA, jTruthy]
    · intro a hA htr
      refine ⟨?_, ?_⟩ <;> simp [hA, htr]

/-- C3 witness: a spec with a non-empty `aggs` requests zero documents. -/
theorem c3_witness :
    (execute_elasticsearch_query
      [("aggs", JVal.jobj [("by_month", JVal.jobj [])])]).isOk = true
    ∧ ((⟨"invoices", ⟨matchAllQuery,
        some (JVal.jobj [("by_month", JVal.jobj [])]), 0⟩⟩ : SearchCall)).body.size = 0 :=
  ⟨rfl,
   ((c3_executor_defaults_amended [("aggs", JVal.jobj [("by_month", JVal.jobj [])])]
      ⟨"invoices", ⟨matchAllQuery, some (JVal.jobj [("by_month", JVal.jobj [])]), 0⟩⟩
      rfl).2.2.2.2.1 (JVal.jobj [("by_month", JVal.jobj [])]) rfl rfl).1⟩

/-! ## C4 — answer_question converts every stage failure into an apology -/

/-- C4: whatever the oracle, the JSON parser, and the store do, an error
raised at any stage of `answer_question` (translate, execute, format,
compose) makes `answer_question` return the apology string with the
error's message embedded in it (never an exception); and a fully
successful pipeline returns the composed answer unchanged. -/
theorem c4_answer_question_catches_everything
    (oracleTranslate : String → Except String (List Char))
    (loads : List Char → Except String (List (String × JVal)))
    (search : SearchCall → Except String SearchResult)
    (oracleAnalyze : String → String → Except String String)
    (question : String) :
    (∀ e, answerPipeline oracleTranslate loads search oracleAnalyze question = .error e →
        answer_question oracleTranslate loads search oracleAnalyze question = apologyString e
        ∧ ∃ pre post, apologyString e = pre ++ e ++ post)
    ∧ (∀ a, answerPipeline oracleTranslate loads search oracleAnalyze question = .ok a →
        answer_question oracleTranslate loads search oracleAnalyze question = a) := by
  constructor
  · intro e he
    refine ⟨?_, "I encountered an error processing your question: ",
      ". Please try rephrasing your question or check if the data is available in the system.",
      rfl⟩
    unfold answer_question
    rw [he]
  · intro a ha
    unfold answer_question
    rw [ha]

/-- C4 witness: an oracle reply that is not valid JSON produces the apology
embedding the parser's message. -/
theorem c4_witness :
    answer_question (fun _ => .ok "this is not json".data)
      (fun _ => .error "Expecting value: line 1 column 1 (char 0)")
      (fun _ => .error "unreachable") (fun _ _ => .error "unreachable") "total sales?"
      = apologyString "Expecting value: line 1 column 1 (char 0)" :=
  ((c4_answer_question_catches_everything (fun _ => .ok "this is not json".data)
      (fun _ => .error "Expecting value: line 1 column 1 (char 0)")
      (fun _ => .error "unreachable") (fun _ _ => .error "unreachable") "total sales?").1
    "Expecting value: line 1 column 1 (char 0)" rfl).1

/-! ## C1 — error propagation across entity types in one run -/

/-- A fetch oracle on which the invoices request raises while every other
entity type's request would succeed. -/
def fetchInvoicesFail : EntityType → Except String Df :=
  fun e => if e = .invoices then .error "API Error: boom"
           else .ok [[("code", Value.vstr "X")]]

/-- C1 counterexample: with a failing invoices fetch and every sibling
fetch succeeding, the run aborts before processing *any* sibling entity
type — the loader processes nothing and the run reports failure.  This
refutes "a fetch error for one entity type does not halt the processing
of the other entity types in that same run": the sequential dict literal
in `get_all_financial_data` re-raises the first fetch error, so siblings
are never fetched or loaded. -/
theorem c1_counterexample_fetch_error_halts_siblings :
    fetchInvoicesFail .customers = .ok [[("code", Value.vstr "X")]]
    ∧ run_etl_pipeline fetchInvoicesFail bulkOk "T" = (false, []) :=
  ⟨rfl, rfl⟩

/-- A successfully assembled dataset needs every fetch to have succeeded. -/
theorem get_all_ok_inv (fetch : EntityType → Except String Df) (l : List (EntityType × Df))
    (hres : get_all_financial_data fetch = .ok l) : ∀ t, ∃ df, fetch t = .ok df := by
  unfold get_all_financial_data at hres
  rcases h1 : fetch .invoices with m | d1
  · rw [h1] at hres
    simp [Bind.bind, Except.bind] at hres
  rw [h1] at hres
  rcases h2 : fetch .customers with m | d2
  · rw [h2] at hres
    simp [Bind.bind, Except.bind] at hres
  rw [h2] at hres
  rcases h3 : fetch .purchases with m | d3
  · rw [h3] at hres
    simp [Bind.bind, Except.bind] at hres
  rw [h3] at hres
  rcases h4 : fetch .items with m | d4
  · rw [h4] at hres
    simp [Bind.bind, Except.bind] at hres
  rw [h4] at hres
  rcases h5 : fetch .projects with m | d5
  · rw [h5] at hres
    simp [Bind.bind, Except.bind] at hres
  rw [h5] at hres
  rcases h6 : fetch .objects with m | d6
  · rw [h6] at hres
    simp [Bind.bind, Except.bind] at hres
  rw [h6] at hres
  rcases h7 : fetch .accounts with m | d7
  · rw [h7] at hres
    simp [Bind.bind, Except.bind] at hres
  rw [h7] at hres
  rcases h8 : fetch .suppliers with m | d8
  · rw [h8] at hres
    simp [Bind.bind, Except.bind] at hres
  intro t
  cases t with
  | invoices => exact ⟨d1, h1⟩
  | customers => exact ⟨d2, h2⟩
  | purchases => exact ⟨d3, h3⟩
  | items => exact ⟨d4, h4⟩
  | projects => exact ⟨d5, h5⟩
  | objects => exact ⟨d6, h6⟩
  | accounts => exact ⟨d7, h7⟩
  | suppliers => exact ⟨d8, h8⟩

/-- When any entity type's fetch raises, the assembled dataset raises. -/
theorem get_all_error (fetch : EntityType → Except String Df) (e : EntityType)
    (msg : String) (h : fetch e = .error msg) :
    ∃ m, get_all_financial_data fetch = .error m := by
  rcases hres : get_all_financial_data fetch with m | l
  · exact ⟨m, rfl⟩
  · obtain ⟨df, hdf⟩ := get_all_ok_inv fetch l hres e
    rw [h] at hdf
    cases hdf

/-- C1 (amended): a *fetch* error for any entity type aborts the whole run
— the exception propagates out of the sequential fetch phase, is caught
only at the top-level pipeline call, and the run reports failure; a
*load* (bulk-write) error for one entity type is swallowed by the loader
(count 0) and does not prevent any other present entity type from being
loaded; and a run whose fetches all succeed reports success regardless of
bulk-write failures. -/
theorem c1_error_propagation_amended (fetch : EntityType → Except String Df)
    (bulk : String → List Action → Except String Nat)
    (data : EntityType → Option (Option Df)) (now : String) :
    (∀ e msg, fetch e = .error msg → (run_etl_pipeline fetch bulk now).1 = false)
    ∧ (∀ name df id_field msg, df ≠ [] →
        bulk name (df.map (fun r => mkAction name id_field (setVal "indexed_at" (.vstr now) r)))
          = .error msg →
        index_dataframe name (some df) id_field now bulk
          = ⟨0, df.map (fun r => mkAction name id_field (setVal "indexed_at" (.vstr now) r)), true⟩)
    ∧ (∀ e' df', data e' = some df' →
        (e', index_dataframe (indexNameOf e') df' (some (idFieldOf e')) now bulk)
          ∈ index_all_data data now bulk)
    ∧ ((∀ t, ∃ df, fetch t = .ok df) → (run_etl_pipeline fetch bulk now).1 = true) := by
  refine ⟨?_, ?_, ?_, ?_⟩
  · intro e msg h
    obtain ⟨m, hm⟩ := get_all_error fetch e msg h
    simp [run_etl_pipeline, hm]
  · intro name df id_field msg hdf hb
    have hne : df.isEmpty = false := by
      cases df with
      | nil => exact absurd rfl hdf
      | cons a l => rfl
    simp only [index_dataframe, hne, Bool.false_eq_true, if_false]
    rw [show List.map (mkAction name id_field)
        (List.map (fun r => setVal "indexed_at" (Value.vstr now) r) df)
        = df.map (fun r => mkAction name id_field (setVal "indexed_at" (.vstr now) r)) by
      simp [List.map_map, Function.comp]]
    rw [hb]
  · intro e' df' hp
    refine List.mem_filterMap.mpr ⟨e', mem_loadOrder e', ?_⟩
    simp [hp]
  · intro hall
    obtain ⟨l, hl⟩ := get_all_ok fetch hall
    simp [run_etl_pipeline, hl]

/-- C1 witness: with all fetches succeeding but the invoices bulk write
raising, the invoices load returns count 0 and the run still succeeds. -/
theorem c1_witness :
    (run_etl_pipeline (fun _ => .ok [[("code", Value.vstr "X")]])
      (fun name acts => if name = "invoices" then .error "ConnectionTimeout" else .ok acts.length)
      "T").1 = true :=
  (c1_error_propagation_amended (fun _ => .ok [[("code", Value.vstr "X")]])
    (fun name acts => if name = "invoices" then .error "ConnectionTimeout" else .ok acts.length)
    (fun _ => none) "T").2.2.2 (fun _ => ⟨_, rfl⟩)

/-! ## C8 — formatting of aggregations and document hits -/

/-- The document-hits header can never be the aggregation header. -/
theorem docHeader_ne_aggHeader (n : Nat) :
    ("\nDocument Hits (" ++ toString n ++ " total):") ≠ "Aggregation Results:" := by
  intro hc
  have hd := congrArg (fun s => s.data.head?) hc
  simp only [String.data_append] at hd
  simp only [List.cons_append, List.head?_cons] at hd
  exact absurd hd (by decide)

/-- C8: the formatted block opens with the aggregation section exactly
when the result carries aggregations; when the result has hits and a
positive total, the sources of (at most) the first 20 hits all appear in
the block; with no aggregations the block is exactly the document part,
and with no (or zero-total) hits it is exactly the aggregation part; and
a spec without an `aggs` key sends a search body with no `aggs` clause
(so the store returns no aggregations and the block has no aggregation
section). -/
theorem c8_formatter_sections (r : SearchResult) :
    ((format_sections r).head? = some "Aggregation Results:" ↔ (r.aggregations).isSome = true)
    ∧ (∀ a, r.aggregations = some a →
        "Aggregation Results:" ∈ format_sections r ∧ dumps a ∈ format_sections r)
    ∧ (∀ hb, r.hits = some hb → 0 < hb.total_value →
        ∀ hit ∈ hb.hits.take 20, dumps hit ∈ format_sections r)
    ∧ (r.aggregations = none → format_sections r =
        (match r.hits with
         | some hb =>
            if hb.total_value > 0 then
              ("\nDocument Hits (" ++ toString hb.total_value ++ " total):") ::
                (hb.hits.take 20).map dumps
            else []
         | none => []))
    ∧ ((r.hits = none ∨ ∃ hb, r.hits = some hb ∧ hb.total_value = 0) →
        format_sections r =
          (match r.aggregations with
           | some a => ["Aggregation Results:", dumps a]
           | none => []))
    ∧ (∀ spec call, execute_elasticsearch_query spec = .ok call →
        jLookup "aggs" spec = none → call.body.aggs = none) := by
  obtain ⟨aggsOpt, hitsOpt⟩ := r
  refine ⟨?_, ?_, ?_, ?_, ?_, ?_⟩
  · cases aggsOpt with
    | some a => simp [format_sections]
    | none =>
      simp only [format_sections, Option.isSome_none]
      cases hitsOpt with
      | none => simp
      | some hb =>
        by_cases ht : hb.total_value > 0
        · simp only [ht, if_pos, List.nil_append]
          constructor
          · intro hh
            simp only [List.head?_cons, Option.some.injEq] at hh
            exact absurd hh (docHeader_ne_aggHeader hb.total_value)
          · intro hh
            cases hh
        · simp [ht]
  · intro a ha
    subst ha
    constructor
    · simp [format_sections]
    · simp [format_sections]
  · intro hb hhits htot hit hmem
    subst hhits
    have hsec : format_sections ⟨aggsOpt, some hb⟩ =
        (match aggsOpt with
         | some a => ["Aggregation Results:", dumps a]
         | none => []) ++
        (("\nDocument Hits (" ++ toString hb.total_value ++ " total):") ::
          (hb.hits.take 20).map dumps) := by
      simp [format_sections, htot]
    rw [hsec]
    exact List.mem_append.mpr
      (Or.inr (List.mem_cons_of_mem _ (List.mem_map_of_mem dumps hmem)))
  · intro ha
    subst ha
    simp [format_sections]
  · intro hcase
    rcases hcase with hnone | ⟨hb, hsome, htot⟩
    · subst hnone
      simp [format_sections]
    · subst hsome
      simp [format_sections, htot]
  · intro spec call h hA
    unfold execute_elasticsearch_query at h
    dsimp only at h
    rcases hS : asStrList ((jLookup "indices" spec).getD (.jarr [.jstr "invoices"])) with _ | names
    · rw [hS] at h
      simp at h
    · rw [hS] at h
      simp only [Except.ok.injEq] at h
      subst h
      simp [hA, jTruthy]

/-- C8 witness: a result with (empty-object) aggregations and two hits
formats with the aggregation header present, and the first hit's source
appears in the block. -/
theorem c8_witness :
    "Aggregation Results:"
        ∈ format_sections ⟨some (JVal.jobj []), some ⟨2, [JVal.jobj [("x", JVal.jnum 1)]]⟩⟩
    ∧ dumps (JVal.jobj [("x", JVal.jnum 1)])
        ∈ format_sections ⟨some (JVal.jobj []), some ⟨2, [JVal.jobj [("x", JVal.jnum 1)]]⟩⟩ :=
  ⟨((c8_formatter_sections ⟨some (JVal.jobj []), some ⟨2, [JVal.jobj [("x", JVal.jnum 1)]]⟩⟩).2.1
      (JVal.jobj []) rfl).1,
   (c8_formatter_sections ⟨some (JVal.jobj []), some ⟨2, [JVal.jobj [("x", JVal.jnum 1)]]⟩⟩).2.2.1
      ⟨2, [JVal.jobj [("x", JVal.jnum 1)]]⟩ rfl (by decide) (JVal.jobj [("x", JVal.jnum 1)])
      (by simp)⟩

/-! ## C7 — code-fence stripping in the translator -/

theorem findSplit_nil (sep : List Char) (hsep : sep ≠ []) : findSplit sep [] = none := by
  simp [findSplit, hsep]

theorem findSplit_cons_neg (sep : List Char) (c : Char) (t : List Char)
    (h : sep.isPrefixOf (c :: t) = false) :
    findSplit sep (c :: t) = (findSplit sep t).map (fun pr => (c :: pr.1, pr.2)) := by
  rw [findSplit, h]
  simp only [Bool.false_eq_true, if_false]
  cases hf : findSplit sep t with
  | none => rfl
  | some pr => cases pr; rfl

theorem findSplit_append_self (sep r : List Char) (hsep : sep ≠ []) :
    findSplit sep (sep ++ r) = some ([], r) := by
  cases sep with
  | nil => exact absurd rfl hsep
  | cons a l =>
    rw [List.cons_append, findSplit]
    have hpre : (a :: l).isPrefixOf (a :: (l ++ r)) = true := by
      rw [← List.cons_append]
      exact List.isPrefixOf_iff_prefix.mpr (List.prefix_append _ _)
    rw [hpre]
    simp only [if_true]
    rw [← List.cons_append, show (a :: l).length = (a :: l).length from rfl]
    congr 1
    rw [Prod.mk.injEq]
    exact ⟨rfl, List.drop_left _ _⟩

theorem isPrefixOf_cons_same (c : Char) (l t : List Char) :
    ((c :: l).isPrefixOf (c :: t)) = l.isPrefixOf t := by
  simp [List.isPrefixOf]

theorem isPrefixOf_head_neq {c d : Char} (h : (c == d) = false) (l t : List Char) :
    ((c :: l).isPrefixOf (d :: t)) = false := by
  simp [List.isPrefixOf, h]

theorem findSplit_skip (sep' a b : List Char) (ha : '`' ∉ a) :
    findSplit ('`' :: sep') (a ++ b) =
      (findSplit ('`' :: sep') b).map (fun pr => (a ++ pr.1, pr.2)) := by
  induction a with
  | nil =>
    simp only [List.nil_append]
    cases hf : findSplit ('`' :: sep') b with
    | none => rfl
    | some pr => cases pr; rfl
  | cons c a' ih =>
    have hc : c ≠ '`' := fun hc => ha (hc ▸ List.mem_cons_self c a')
    have ha' : '`' ∉ a' := fun hm => ha (List.mem_cons_of_mem c hm)
    rw [List.cons_append,
      findSplit_cons_neg _ _ _ (isPrefixOf_head_neq (by simp [hc.symm]) _ _),
      ih ha']
    cases hf : findSplit ('`' :: sep') b with
    | none => rfl
    | some pr => cases pr; rfl

theorem pySplit_of_none (sep s : List Char) (hsep : sep ≠ []) (hf : findSplit sep s = none) :
    pySplit sep s = [s] := by
  rw [pySplit, dif_neg hsep]
  split
  · rfl
  · next pre post heq =>
      rw [hf] at heq
      cases heq

theorem pySplit_of_some (sep s pre post : List Char) (hsep : sep ≠ [])
    (hf : findSplit sep s = some (pre, post)) :
    pySplit sep s = pre :: pySplit sep post := by
  rw [pySplit, dif_neg hsep]
  split
  · next heq =>
      rw [hf] at heq
      cases heq
  · next pre' post' heq =>
      rw [hf] at heq
      cases heq
      rfl

theorem length_dropWhile_le' (f : Char → Bool) (l : List Char) :
    (l.dropWhile f).length ≤ l.length :=
  (List.dropWhile_sublist f).length_le

theorem dropWhile_cons_true (f : Char → Bool) (c : Char) (t : List Char) (h : f c = true) :
    (c :: t).dropWhile f = t.dropWhile f := by
  simp [List.dropWhile, h]

theorem dropWhile_self_or_lt (f : Char → Bool) (l : List Char) :
    l.dropWhile f = l ∨ (l.dropWhile f).length < l.length := by
  cases l with
  | nil => exact Or.inl rfl
  | cons c t =>
    cases hc : f c with
    | false => exact Or.inl (by simp [List.dropWhile, hc])
    | true =>
      refine Or.inr ?_
      rw [List.dropWhile, hc]
      calc (t.dropWhile f).length ≤ t.length := length_dropWhile_le' f t
        _ < (c :: t).length := by simp

theorem pyStrip_length_le_dropWhile (p : List Char) :
    (pyStrip p).length ≤ (p.dropWhile pyIsSpace).length := by
  unfold pyStrip
  rw [List.length_reverse]
  calc (((p.dropWhile pyIsSpace).reverse).dropWhile pyIsSpace).length
      ≤ (p.dropWhile pyIsSpace).reverse.length := length_dropWhile_le' _ _
    _ = (p.dropWhile pyIsSpace).length := List.length_reverse _

theorem dropWhile_eq_self_of_strip (p : List Char) (hst : pyStrip p = p) :
    p.dropWhile pyIsSpace = p := by
  rcases dropWhile_self_or_lt pyIsSpace p with h | h
  · exact h
  · exfalso
    have h1 : p.length ≤ (p.dropWhile pyIsSpace).length := by
      calc p.length = (pyStrip p).length := by rw [hst]
        _ ≤ (p.dropWhile pyIsSpace).length := pyStrip_length_le_dropWhile p
    omega

theorem dropWhile_head_false (f : Char → Bool) (c : Char) (t : List Char)
    (h : (c :: t).dropWhile f = c :: t) : f c = false := by
  cases hc : f c with
  | false => rfl
  | true =>
    exfalso
    rw [List.dropWhile, hc] at h
    have := congrArg List.length h
    have hle := length_dropWhile_le' f t
    simp at this
    omega

/-- `"\n" + p + "\n"` strips back to `p` when `p` is already stripped. -/
theorem pyStrip_wrap (p : List Char) (hst : pyStrip p = p) :
    pyStrip ('\n' :: (p ++ ['\n'])) = p := by
  have hdp : p.dropWhile pyIsSpace = p := dropWhile_eq_self_of_strip p hst
  cases p with
  | nil => rfl
  | cons c p' =>
    have hc : pyIsSpace c = false := dropWhile_head_false pyIsSpace c p' hdp
    have hfront : ('\n' :: ((c :: p') ++ ['\n'])).dropWhile pyIsSpace
        = (c :: p') ++ ['\n'] := by
      rw [List.dropWhile, show pyIsSpace '\n' = true from rfl, List.cons_append,
        List.dropWhile, hc]
    unfold pyStrip
    rw [hfront]
    have hrev : ((c :: p') ++ ['\n']).reverse = '\n' :: (c :: p').reverse := by
      simp
    rw [hrev, dropWhile_cons_true pyIsSpace '\n' _ (by decide)]
    have h0 : pyStrip (c :: p') = c :: p' := hst
    unfold pyStrip at h0
    rw [hdp] at h0
    exact h0

theorem findSplit_none_no_tick (sep' p : List Char) (hbt : '`' ∉ p) :
    findSplit ('`' :: sep') p = none := by
  have h := findSplit_skip sep' p [] hbt
  rw [List.append_nil] at h
  rw [h, findSplit_nil _ (by simp)]
  rfl

/-- The interior of either fence variant: newline, payload, newline. -/
def fenceInterior (p : List Char) : List Char := '\n' :: (p ++ ['\n'])

theorem tick_not_mem_interior (p : List Char) (hbt : '`' ∉ p) :
    '`' ∉ fenceInterior p := by
  intro hm
  rcases List.mem_cons.mp hm with h | h
  · exact absurd h (by decide)
  · rcases List.mem_append.mp h with h | h
    · exact hbt h
    · simp at h

theorem skip_json_interior (p : List Char) (hbt : '`' ∉ p) :
    findSplit "```json".data (fenceInterior p ++ "```".data) = none := by
  rw [show "```json".data = '`' :: "``json".data from rfl,
    findSplit_skip "``json".data _ _ (tick_not_mem_interior p hbt),
    show findSplit ('`' :: "``json".data) "```".data = none from by decide]
  rfl

theorem skip_fence_interior (p : List Char) (hbt : '`' ∉ p) :
    findSplit "```".data (fenceInterior p ++ "```".data)
      = some (fenceInterior p, []) := by
  rw [show "```".data = '`' :: "``".data from rfl,
    findSplit_skip "``".data _ _ (tick_not_mem_interior p hbt),
    show findSplit ('`' :: "``".data) "```".data = some ([], []) from by decide]
  simp

theorem pySplit_fence_nil : pySplit "```".data [] = [[]] :=
  pySplit_of_none _ _ (by decide) (findSplit_nil _ (by decide))

theorem extract_fenced_json (p : List Char) (hbt : '`' ∉ p) (hst : pyStrip p = p) :
    extract_json_text ("```json\n".data ++ p ++ "\n```".data) = p := by
  have hF : "```json\n".data ++ p ++ "\n```".data
      = "```json".data ++ (fenceInterior p ++ "```".data) := by
    rw [show "```json\n".data = "```json".data ++ ['\n'] from rfl,
      show "\n```".data = ['\n'] ++ "```".data from rfl]
    simp [fenceInterior]
  have hcon1 : pyContains ("```json\n".data ++ p ++ "\n```".data) "```json".data = true := by
    unfold pyContains
    rw [hF, findSplit_append_self _ _ (by decide)]
    rfl
  have hsplit1 : pySplit "```json".data ("```json\n".data ++ p ++ "\n```".data)
      = [[], fenceInterior p ++ "```".data] := by
    rw [hF, pySplit_of_some _ _ [] _ (by decide) (findSplit_append_self _ _ (by decide)),
      pySplit_of_none _ _ (by decide) (skip_json_interior p hbt)]
  have hsplit2 : pySplit "```".data (fenceInterior p ++ "```".data)
      = [fenceInterior p, []] := by
    rw [pySplit_of_some _ _ _ _ (by decide) (skip_fence_interior p hbt), pySplit_fence_nil]
  unfold extract_json_text
  rw [if_pos hcon1, hsplit1]
  rw [show pyAt [[], fenceInterior p ++ "```".data] 1 = fenceInterior p ++ "```".data from rfl,
    hsplit2,
    show pyAt [fenceInterior p, []] 0 = fenceInterior p from rfl]
  exact pyStrip_wrap p hst

theorem fenceInterior_cons (p : List Char) :
    fenceInterior p ++ "```".data = '\n' :: ((p ++ ['\n']) ++ "```".data) := by
  simp [fenceInterior]

theorem json_fence_not_in_untagged (p : List Char) (hbt : '`' ∉ p) :
    findSplit "```json".data ("```".data ++ (fenceInterior p ++ "```".data)) = none := by
  have hpre1 : "```json".data.isPrefixOf
      ('`' :: '`' :: '`' :: (fenceInterior p ++ "```".data)) = false := by
    rw [show "```json".data = '`' :: '`' :: '`' :: 'j' :: "son".data from rfl,
      isPrefixOf_cons_same, isPrefixOf_cons_same, isPrefixOf_cons_same, fenceInterior_cons]
    exact isPrefixOf_head_neq (by decide) _ _
  have hpre2 : "```json".data.isPrefixOf
      ('`' :: '`' :: (fenceInterior p ++ "```".data)) = false := by
    rw [show "```json".data = '`' :: '`' :: '`' :: 'j' :: "son".data from rfl,
      isPrefixOf_cons_same, isPrefixOf_cons_same, fenceInterior_cons]
    exact isPrefixOf_head_neq (by decide) _ _
  have hpre3 : "```json".data.isPrefixOf
      ('`' :: (fenceInterior p ++ "```".data)) = false := by
    rw [show "```json".data = '`' :: '`' :: '`' :: 'j' :: "son".data from rfl,
      isPrefixOf_cons_same, fenceInterior_cons]
    exact isPrefixOf_head_neq (by decide) _ _
  rw [show "```".data ++ (fenceInterior p ++ "```".data)
      = '`' :: '`' :: '`' :: (fenceInterior p ++ "```".data) from rfl,
    findSplit_cons_neg _ _ _ hpre1, findSplit_cons_neg _ _ _ hpre2,
    findSplit_cons_neg _ _ _ hpre3, skip_json_interior p hbt]
  rfl

theorem extract_fenced_untagged (p : List Char) (hbt : '`' ∉ p) (hst : pyStrip p = p) :
    extract_json_text ("```\n".data ++ p ++ "\n```".data) = p := by
  have hF : "```\n".data ++ p ++ "\n```".data
      = "```".data ++ (fenceInterior p ++ "```".data) := by
    rw [show "```\n".data = "```".data ++ ['\n'] from rfl,
      show "\n```".data = ['\n'] ++ "```".data from rfl]
    simp [fenceInterior]
  have hcon0 : pyContains ("```\n".data ++ p ++ "\n```".data) "```json".data = false := by
    unfold pyContains
    rw [hF, json_fence_not_in_untagged p hbt]
    rfl
  have hcon1 : pyContains ("```\n".data ++ p ++ "\n```".data) "```".data = true := by
    unfold pyContains
    rw [hF, findSplit_append_self _ _ (by decide)]
    rfl
  have hsplit1 : pySplit "```".data ("```\n".data ++ p ++ "\n```".data)
      = [[], fenceInterior p, []] := by
    rw [hF, pySplit_of_some _ _ [] _ (by decide) (findSplit_append_self _ _ (by decide)),
      pySplit_of_some _ _ _ _ (by decide) (skip_fence_interior p hbt), pySplit_fence_nil]
  have hsplit2 : pySplit "```".data (fenceInterior p) = [fenceInterior p] := by
    refine pySplit_of_none _ _ (by decide) ?_
    rw [show "```".data = '`' :: "``".data from rfl]
    exact findSplit_none_no_tick _ _ (tick_not_mem_interior p hbt)
  unfold extract_json_text
  rw [if_neg (by rw [hcon0]; simp), if_pos hcon1, hsplit1,
    show pyAt [[], fenceInterior p, []] 1 = fenceInterior p from rfl, hsplit2,
    show pyAt [fenceInterior p] 0 = fenceInterior p from rfl]
  exact pyStrip_wrap p hst

theorem extract_unfenced (p : List Char) (hbt : '`' ∉ p) :
    extract_json_text p = p := by
  have h1 : pyContains p "```json".data = false := by
    unfold pyContains
    rw [show "```json".data = '`' :: "``json".data from rfl, findSplit_none_no_tick _ _ hbt]
    rfl
  have h2 : pyContains p "```".data = false := by
    unfold pyContains
    rw [show "```".data = '`' :: "``".data from rfl, findSplit_none_no_tick _ _ hbt]
    rfl
  unfold extract_json_text
  rw [if_neg (by rw [h1]; simp), if_neg (by rw [h2]; simp)]

/-- C7: for a JSON payload containing no backtick and no leading/trailing
whitespace, the translator strips a surrounding code fence — with or
without the `json` tag — down to the payload, leaves the unfenced payload
unchanged (so all three variants parse to the same structured spec), and
re-raises the parser's error when the remaining text is not valid JSON. -/
theorem c7_fence_stripping (p : List Char)
    (loads : List Char → Except String (List (String × JVal)))
    (hbt : '`' ∉ p) (hst : pyStrip p = p) :
    extract_json_text ("```json\n".data ++ p ++ "\n```".data) = p
    ∧ extract_json_text ("```\n".data ++ p ++ "\n```".data) = p
    ∧ extract_json_text p = p
    ∧ build_elasticsearch_query loads ("```json\n".data ++ p ++ "\n```".data)
        = build_elasticsearch_query loads p
    ∧ build_elasticsearch_query loads ("```\n".data ++ p ++ "\n```".data)
        = build_elasticsearch_query loads p
    ∧ (∀ e, loads p = .error e →
        build_elasticsearch_query loads ("```json\n".data ++ p ++ "\n```".data) = .error e) := by
  have hA := extract_fenced_json p hbt hst
  have hB := extract_fenced_untagged p hbt hst
  have hC := extract_unfenced p hbt
  refine ⟨hA, hB, hC, ?_, ?_, ?_⟩
  · unfold build_elasticsearch_query
    rw [hA, hC]
  · unfold build_elasticsearch_query
    rw [hB, hC]
  · intro e he
    unfold build_elasticsearch_query
    rw [hA, he]

/-- C7 witness: a concrete fenced payload strips to the payload itself. -/
theorem c7_witness :
    extract_json_text
        ("```json\n".data ++ "\x7b\"indices\": [\"invoices\"]\x7d".data ++ "\n```".data)
      = "\x7b\"indices\": [\"invoices\"]\x7d".data :=
  (c7_fence_stripping "\x7b\"indices\": [\"invoices\"]\x7d".data
    (fun _ => .error "Expecting value") (by decide) (by decide)).1


end DirectoPipeline
